import Mathlib

/-!
Verification development for the email-task-list agent
(`src/mastra/workflows/taskRefreshWorkflow.ts` and `src/mastra/tools/emailTool.ts`).

JavaScript strings are modelled as `List Char` (`Str`), JS `undefined`/absent
fields as `Option`, and the JS `Map` used for the task store as an ordered
association list with insert-or-replace semantics matching `Map.set`.
External capabilities (Gmail, the language model, `Date.now()`, base64
decoding) are supplied as components of an `Env` record; the pipeline state
(the module-level `taskStore` and `executionLogs`, plus call counters used
to index the external oracles) is threaded explicitly through `WState`.
-/

namespace EmailAgent

/-- JavaScript string, modelled as a list of characters. -/
abbrev Str := List Char

/-- Conversion from a Lean string literal to the `Str` model type. -/
def str (s : String) : Str := s.toList

/-- JS `String.prototype.toLowerCase` (restricted to per-character lowering). -/
def lowerStr (s : Str) : Str := s.map Char.toLower

/-- JS truthiness of a possibly-absent string: `undefined` and `""` are falsy. -/
def jsTruthyStr : Option Str → Bool
  | none => false
  | some s => !s.isEmpty

/-- JS `x || d` for a possibly-absent string `x` with string default `d`. -/
def jsOr (x : Option Str) (d : Str) : Str :=
  if jsTruthyStr x then x.getD [] else d

/-- Boolean prefix test used to model JS `String.prototype.includes`. -/
def isPrefixB : Str → Str → Bool
  | [], _ => true
  | _ :: _, [] => false
  | a :: as, b :: bs => a == b && isPrefixB as bs

/-- JS `hay.includes(needle)`: substring occurrence test. -/
def containsSub : Str → Str → Bool
  | [], needle => isPrefixB needle []
  | hay@(_ :: rest), needle => isPrefixB needle hay || containsSub rest needle

/-- Decimal rendering of a natural number, as produced by JS template
interpolation of `Date.now()` (`Nat.repr` renders in decimal as JS does). -/
def natStr (n : Nat) : Str := (Nat.repr n).toList

/-- A JS value as inspected by `decodeEmailBody`: either a falsy value
(`undefined`/`null`, constructor `null`) or an object with the optional
fields `data`, `mimeType`, `body` and `parts` that the decoder reads
(other fields of the Gmail payload are never consulted). -/
inductive GItem where
  | null : GItem
  | mk (data : Option Str) (mimeType : Option Str) (body : GItem) (parts : List GItem) : GItem

lemma GItem.one_le_sizeOf (g : GItem) : 1 ≤ sizeOf g := by
  cases g
  · simp
  · simp; omega

lemma GItem.list_one_le_sizeOf (l : List GItem) : 1 ≤ sizeOf l := by
  cases l
  · simp
  · simp; omega

lemma optionStr_one_le_sizeOf (o : Option Str) : 1 ≤ sizeOf o := by
  cases o
  · simp
  · simp

mutual
/-- Model of `decodeEmailBody` (workflow source lines 258–278), parameterised
by the base64 decoding capability `f` (`Buffer.from(data, "base64").toString`).
`if (!body) return ''` is the `null` case; `if (body.data)` is the JS
truthiness test on the optional `data` field. -/
def decodeEmailBody (f : Str → Str) : GItem → Str
  | .null => []
  | .mk data _ _ parts =>
    if jsTruthyStr data then f (data.getD []) else decodeParts f parts
/-- Model of the `for (const part of body.parts)` loop of `decodeEmailBody`.
A part whose `mimeType` is `text/plain` or `text/html` is committed to:
the function returns `decodeEmailBody(part.body)` unconditionally.  Otherwise
`decodeEmailBody({ parts: part.parts })` is tried; since the synthetic
wrapper object has no `data`, that call immediately recurses into the same
loop over `part.parts`, which is inlined here as `decodeParts f parts`.
A `null` entry in a parts list is skipped (the Source never produces one;
in JS it would fault before reaching any content). -/
def decodeParts (f : Str → Str) : List GItem → Str
  | [] => []
  | .null :: rest => decodeParts f rest
  | .mk _data m body parts :: rest =>
    if m = some (str "text/plain") ∨ m = some (str "text/html") then
      decodeEmailBody f body
    else
      let dec := decodeParts f parts
      if dec.isEmpty then decodeParts f rest else dec
end

mutual
/-- Content Decoder as the specification describes it (spec §4.1): the first
decodable plain-text or HTML body found by a depth-first traversal that
prefers a part's own body before descending into its nested parts and
prefers earlier-listed parts over later ones, returning the empty string
when no decodable part exists.  Unlike the implementation, this traversal
does not commit to a text-labelled part whose body yields no text: it keeps
searching the later parts. -/
def decodeClaimed (f : Str → Str) : GItem → Str
  | .null => []
  | .mk data _ _ parts =>
    if jsTruthyStr data then f (data.getD []) else claimedParts f parts
/-- Parts traversal of `decodeClaimed`: for each part in listed order, first
the part's own body (when the part is labelled `text/plain` or `text/html`),
then its nested parts, then the remaining siblings. -/
def claimedParts (f : Str → Str) : List GItem → Str
  | [] => []
  | .null :: rest => claimedParts f rest
  | .mk _data m body parts :: rest =>
    let own :=
      if m = some (str "text/plain") ∨ m = some (str "text/html") then
        decodeClaimed f body
      else []
    if !own.isEmpty then own
    else
      let dec := claimedParts f parts
      if !dec.isEmpty then dec else claimedParts f rest
end

mutual
/-- All decodable (JS-truthy) `data` fields occurring anywhere in a payload
value, whether or not the decoder's traversal can reach them. -/
def collectData : GItem → List Str
  | .null => []
  | .mk data _ body parts =>
    (if jsTruthyStr data then [data.getD []] else []) ++
      collectData body ++ collectList parts
/-- All decodable `data` fields occurring in a list of payload values. -/
def collectList : List GItem → List Str
  | [] => []
  | g :: gs => collectData g ++ collectList gs
end

/-- Message header as delivered by the Message Source: a name/value pair. -/
structure Header where
  name : Str
  value : Str
deriving DecidableEq

/-- The Gmail message payload fields read by `getEmails`: the header list,
the top-level `body` object handed to the decoder, and the top-level part
list (used when `payload.body` is falsy). -/
structure GPayload where
  headers : Option (List Header)
  body : GItem
  parts : List GItem

/-- A raw unread message as returned by the Message Source: its opaque
identifier and its full payload (absent when the API returned none). -/
structure RawMessage where
  id : Str
  payload : Option GPayload

/-- Task status, `'pending' | 'completed'` in the source. -/
inductive TaskStatus where
  | pending : TaskStatus
  | completed : TaskStatus
deriving DecidableEq

/-- The `Task` record persisted in the task store (emailTool source lines
242–253).  `priority` is kept as a raw string because the runtime value is
whatever the parsed model response supplied (the TS union type is erased),
and `description` is absent (`none`) when the parsed response lacked one —
the runtime then stores `undefined` in the field. -/
structure Task where
  id : Str
  emailId : Str
  subject : Str
  description : Option Str
  sender : Str
  priority : Str
  dueDate : Option Str
  status : TaskStatus
  notes : List Str
  createdAt : Nat
deriving DecidableEq

/-- Outcome recorded in a workflow execution log entry. -/
inductive LogStatus where
  | success : LogStatus
  | error : LogStatus
deriving DecidableEq

/-- The `WorkflowExecutionLog` entry appended by `logExecution` (workflow
source lines 6–12); timestamps are abstract clock readings. -/
structure WorkflowExecutionLog where
  timestamp : Nat
  emailsChecked : Nat
  tasksExtracted : Nat
  status : LogStatus
  error : Option Str
deriving DecidableEq

/-- The per-message record assembled by `getEmails` and handed to the
extraction loop (emailTool source lines 325–331). -/
structure Email where
  id : Str
  subject : Str
  sender : Str
  date : Str
  body : Str
deriving DecidableEq

/-- Parsed structured response of the language model, as read by
`extractTasksFromEmail` after `JSON.parse`: `noTask` is the truthiness of
the parsed value's `noTask` field, and each other field is `none` when it
is missing from the parsed value.  This covers structurally malformed but
parseable responses such as `{}` or `42`: for those, every field is absent
and `noTask` is falsy, so the code proceeds to build a task. -/
structure ExtractResult where
  noTask : Bool
  description : Option Str
  priority : Option Str
  dueDate : Option Str
  context : Option Str
deriving DecidableEq

/-- Outcome of one `generateText` + `JSON.parse` round trip: `fail` covers a
model-call error, unparseable text, or a parsed value (such as `null`)
whose property access throws — any exception reaching the `catch` of
`extractTasksFromEmail`; `ok` carries any other parsed value, however
malformed its structure. -/
inductive ModelOutcome where
  | fail : ModelOutcome
  | ok (r : ExtractResult) : ModelOutcome

/-- External capabilities of one pipeline run.  `source k maxResults` is the
combined result of the `messages.list` + `messages.get` round trips of the
`k`-th `getEmails` call (`error` when any of them throws); `llm n` is the
outcome of the `n`-th extractor call; `dateNow n` and `createdNow n` are the
`Date.now()` and `new Date()` readings inside the `n`-th extractor call;
`logTime k` is the timestamp of the `k`-th appended log entry; `b64` is the
base64 decoding capability.  `listTasksFails` injects a Persisting-stage
failure: when `some e`, the `listTasks` tool call of the third step throws
`e` (modelled from the spec, §4.5/§7: store enumeration during `Persisting`
may fail; the in-memory `getAllTasks` itself cannot). -/
structure Env where
  b64 : Str → Str
  source : Nat → Nat → Except Str (List RawMessage)
  llm : Nat → ModelOutcome
  dateNow : Nat → Nat
  createdNow : Nat → Nat
  logTime : Nat → Nat
  listTasksFails : Option Str

/-- Mutable module-level state threaded through a run: `taskStore` (the JS
`Map` as an insertion-ordered association list), `executionLogs`, and the
count of Message Source fetches and extractor calls made so far (the
counters index the `Env` oracles; `submitted` additionally records, in
order, each email passed to `extractTasksFromEmail` — pure instrumentation
used to state which messages reach the Task Extractor). -/
structure WState where
  taskStore : List (Str × Task)
  executionLogs : List WorkflowExecutionLog
  fetchCalls : Nat
  extractCalls : Nat
  submitted : List Email
deriving DecidableEq

/-- State at process start: empty store, empty log. -/
def initialState : WState := ⟨[], [], 0, 0, []⟩

/-- JS `Map.prototype.get`: the value stored at `k`, if any. -/
def mapGet (m : List (Str × Task)) (k : Str) : Option Task :=
  match m with
  | [] => none
  | (k2, v2) :: rest => if k2 = k then some v2 else mapGet rest k

/-- JS `Map.prototype.set`: insert-or-replace at `k`, keeping the original
position of an existing key (JS `Map` preserves first-insertion order). -/
def mapSet (m : List (Str × Task)) (k : Str) (v : Task) : List (Str × Task) :=
  match m with
  | [] => [(k, v)]
  | (k2, v2) :: rest => if k2 = k then (k, v) :: rest else (k2, v2) :: mapSet rest k v

/-- Model of `getAllTasks` (emailTool source lines 419–421):
`Array.from(taskStore.values())`, i.e. the stored tasks in insertion order. -/
def getAllTasks (store : List (Str × Task)) : List Task :=
  store.map (·.2)

/-- Model of `markTaskComplete` (emailTool source lines 397–405): set the
status of the task at `taskId` to completed and report `true`; report
`false` and change nothing when the id is absent. -/
def markTaskComplete (store : List (Str × Task)) (taskId : Str) :
    Bool × List (Str × Task) :=
  match mapGet store taskId with
  | some task => (true, mapSet store taskId { task with status := .completed })
  | none => (false, store)

/-- Model of `addTaskNote` (emailTool source lines 408–416): push `note`
onto the notes of the task at `taskId` and report `true`; report `false`
and change nothing when the id is absent. -/
def addTaskNote (store : List (Str × Task)) (taskId : Str) (note : Str) :
    Bool × List (Str × Task) :=
  match mapGet store taskId with
  | some task => (true, mapSet store taskId { task with notes := task.notes ++ [note] })
  | none => (false, store)

/-- Headers of a raw message: `detail.data.payload?.headers || []` (an empty
header array is truthy in JS, so the default only applies when the payload
or its header field is absent — the same result either way). -/
def messageHeaders (m : RawMessage) : List Header :=
  ((m.payload).bind (·.headers)).getD []

/-- The value handed to `decodeEmailBody`:
`detail.data.payload?.body || detail.data.payload`.  When the payload is
absent the decoder receives a falsy value; when its `body` field is falsy
the payload object itself is passed, which for the decoder is an object
with no `data` and with the payload's top-level `parts`. -/
def decodeInput (p : Option GPayload) : GItem :=
  match p with
  | none => .null
  | some pl =>
    match pl.body with
    | .null => .mk none none .null pl.parts
    | b => b

/-- The fixed keyword list of `isPromotionalEmail` (emailTool source lines
285–288). -/
def promotionalKeywords : List Str :=
  [str "unsubscribe", str "newsletter", str "promotion", str "sale",
   str "discount", str "offer", str "deal", str "no-reply",
   str "noreply", str "automated"]

/-- Value of the first header whose lowercased name is `from`, defaulted to
the empty string (`headers.find(...)?.value || ''`). -/
def fromHeaderValue (headers : List Header) : Str :=
  jsOr ((headers.find? (fun h => lowerStr h.name == str "from")).map (·.value)) []

/-- Value of the first header whose lowercased name is `subject`, defaulted
to the empty string. -/
def subjectHeaderValue (headers : List Header) : Str :=
  jsOr ((headers.find? (fun h => lowerStr h.name == str "subject")).map (·.value)) []

/-- Model of `isPromotionalEmail` (emailTool source lines 281–293): some
fixed keyword occurs in the lowercased concatenation of the from-header
value, the subject-header value and the decoded body. -/
def isPromotionalEmail (headers : List Header) (body : Str) : Bool :=
  let contentToCheck :=
    lowerStr (fromHeaderValue headers ++ subjectHeaderValue headers ++ body)
  promotionalKeywords.any (fun keyword => containsSub contentToCheck keyword)

/-- The per-message work of the `getEmails` loop (emailTool source lines
314–332): read the `Subject`/`From`/`Date` headers (exact-case lookup, with
JS `||` defaults), decode the body, drop the message when
`isPromotionalEmail` matches, and otherwise keep it with the body truncated
to 2000 characters.  `sender` models the `from` field of the pushed record
(`from` is a reserved word in Lean). -/
def emailOf (b64 : Str → Str) (m : RawMessage) : Option Email :=
  let headers := messageHeaders m
  let subject := jsOr ((headers.find? (fun h => h.name == str "Subject")).map (·.value)) (str "No Subject")
  let sender := jsOr ((headers.find? (fun h => h.name == str "From")).map (·.value)) (str "Unknown")
  let date := jsOr ((headers.find? (fun h => h.name == str "Date")).map (·.value)) []
  let body := decodeEmailBody b64 (decodeInput m.payload)
  if isPromotionalEmail headers body then none
  else some ⟨m.id, subject, sender, date, body.take 2000⟩

/-- Model of `getEmails` (emailTool source lines 296–339).  The Message
Source round trips are `env.source` indexed by the fetch counter; on any
source failure the fixed error `Failed to fetch emails from Gmail` is
thrown.  On success the result is the non-promotional messages, decoded
and truncated. -/
def getEmails (env : Env) (maxResults : Nat) (s : WState) :
    Except Str (List Email) × WState :=
  let s2 := { s with fetchCalls := s.fetchCalls + 1 }
  match env.source s.fetchCalls maxResults with
  | .error _ => (.error (str "Failed to fetch emails from Gmail"), s2)
  | .ok msgs => (.ok (msgs.filterMap (emailOf env.b64)), s2)

/-- Task identifier construction: `` `task-${email.id}-${Date.now()}` ``. -/
def mkTaskId (emailId : Str) (now : Nat) : Str :=
  str "task-" ++ emailId ++ str "-" ++ natStr now

/-- Model of `extractTasksFromEmail` (emailTool source lines 342–394).  The
model call and `JSON.parse` are the `env.llm` oracle indexed by the
extractor-call counter; any thrown failure is caught and yields `null`
with no store change.  A parsed response with truthy `noTask` yields
`null`.  Any other parsed response — including a structurally malformed
one such as `{}`, whose fields are all absent — has the task built
(`result.priority || 'medium'`, `notes: [result.context || '']`, status
`pending`, id from `mkTaskId`, `description` stored as-is, absent or not),
inserted into the store, and returned. -/
def extractTasksFromEmail (env : Env) (email : Email) (s : WState) :
    Option Task × WState :=
  let n := s.extractCalls
  let s2 := { s with extractCalls := n + 1, submitted := s.submitted ++ [email] }
  match env.llm n with
  | .fail => (none, s2)
  | .ok r =>
    if r.noTask then (none, s2)
    else
      let task : Task :=
        { id := mkTaskId email.id (env.dateNow n)
          emailId := email.id
          subject := email.subject
          description := r.description
          sender := email.sender
          priority := jsOr r.priority (str "medium")
          dueDate := r.dueDate
          status := .pending
          notes := [jsOr r.context []]
          createdAt := env.createdNow n }
      (some task, { s2 with taskStore := mapSet s2.taskStore task.id task })

/-- The `for (const email of emails)` loop of the `extractTasks` tool action
(emailTool source lines 450–455): each email is extracted independently and
the produced tasks are accumulated in order. -/
def extractLoop (env : Env) (emails : List Email) (s : WState) (acc : List Task) :
    List Task × WState :=
  match emails with
  | [] => (acc, s)
  | email :: rest =>
    match extractTasksFromEmail env email s with
    | (some t, s2) => extractLoop env rest s2 (acc ++ [t])
    | (none, s2) => extractLoop env rest s2 acc

/-- The `extractTasks` case of `emailTool.execute` (emailTool source lines
446–462): fetch the emails afresh from the Message Source, then run the
extraction loop over them. -/
def extractTasksAction (env : Env) (maxResults : Nat) (s : WState) :
    Except Str (List Task) × WState :=
  match getEmails env maxResults s with
  | (.error e, s2) => (.error e, s2)
  | (.ok emails, s2) =>
    let r := extractLoop env emails s2 []
    (.ok r.1, r.2)

/-- Context produced by the first workflow step. -/
structure FetchOut where
  emails : List Email
  emailCount : Nat
deriving DecidableEq

/-- Context produced by the second workflow step. -/
structure ExtractOut where
  tasks : List Task
  taskCount : Nat
deriving DecidableEq

/-- Result of the third workflow step. -/
structure UpdateOut where
  success : Bool
  totalTasks : Nat
  newTasks : Nat
deriving DecidableEq

/-- Model of `fetchEmailsStep` (workflow source lines 30–59): run the
`getEmails` tool action with `maxResults: 20`; on success return the emails
and their count, otherwise rethrow. -/
def fetchEmailsStep (env : Env) (s : WState) : Except Str FetchOut × WState :=
  match getEmails env 20 s with
  | (.error e, s2) => (.error e, s2)
  | (.ok emails, s2) => (.ok ⟨emails, emails.length⟩, s2)

/-- Model of `extractTasksStep` (workflow source lines 62–92): run the
`extractTasks` tool action with `maxResults: 20` (which fetches again); on
success return the tasks and their count, otherwise rethrow. -/
def extractTasksStep (env : Env) (s : WState) : Except Str ExtractOut × WState :=
  match extractTasksAction env 20 s with
  | (.error e, s2) => (.error e, s2)
  | (.ok tasks, s2) => (.ok ⟨tasks, tasks.length⟩, s2)

/-- Model of `logExecution` (workflow source lines 18–27): append one entry
to the execution log (timestamp from the log clock oracle). -/
def logExecution (env : Env) (s : WState) (emailsChecked tasksExtracted : Nat)
    (status : LogStatus) (err : Option Str) : WState :=
  { s with executionLogs :=
      s.executionLogs ++
        [⟨env.logTime s.executionLogs.length, emailsChecked, tasksExtracted, status, err⟩] }

/-- Model of `updateTaskListStep` (workflow source lines 95–147): call the
`listTasks` tool action; on success log a success entry carrying the
email and task counts of this run and report the store total; if the call
throws, the `catch` logs an error entry with `tasksExtracted: 0` and the
error detail, then rethrows. -/
def updateTaskListStep (env : Env) (emailCount taskCount : Nat) (s : WState) :
    Except Str UpdateOut × WState :=
  match env.listTasksFails with
  | some e =>
    let s2 := logExecution env s emailCount 0 .error (some e)
    (.error e, s2)
  | none =>
    let totalTasks := (getAllTasks s.taskStore).length
    let s2 := logExecution env s emailCount taskCount .success none
    (.ok ⟨true, totalTasks, taskCount⟩, s2)

/-- Model of the `task-refresh-workflow` (workflow source lines 150–159).
The step engine (`createWorkflow(...).step(...).step(...).step(...)` of
`@mastra/core`) is not part of this repository; its sequencing is modelled
from the spec's state machine (§4.5): the three steps run strictly in
order, each later step reading the counts produced by earlier ones, and a
step that throws ends the run as Failed without running later steps. -/
def taskRefreshWorkflow (env : Env) (s : WState) : Except Str UpdateOut × WState :=
  match fetchEmailsStep env s with
  | (.error e, s1) => (.error e, s1)
  | (.ok o1, s1) =>
    match extractTasksStep env s1 with
    | (.error e, s2) => (.error e, s2)
    | (.ok o2, s2) => updateTaskListStep env o1.emailCount o2.taskCount s2

/-! Helper lemmas about the string, map and loop primitives. -/

lemma isPrefixB_append (n s t : Str) (h : isPrefixB n s = true) :
    isPrefixB n (s ++ t) = true := by
  induction n generalizing s with
  | nil => simp [isPrefixB]
  | cons a as ih =>
    cases s with
    | nil => simp [isPrefixB] at h
    | cons b bs =>
      simp only [isPrefixB, Bool.and_eq_true, beq_iff_eq] at h
      simp only [List.cons_append, isPrefixB, Bool.and_eq_true, beq_iff_eq]
      exact ⟨h.1, ih bs h.2⟩

lemma containsSub_needle_nil (hay : Str) : containsSub hay [] = true := by
  induction hay with
  | nil => simp [containsSub, isPrefixB]
  | cons c rest ih => simp [containsSub, isPrefixB, ih]

lemma containsSub_append_left (a b n : Str) (h : containsSub a n = true) :
    containsSub (a ++ b) n = true := by
  induction a with
  | nil =>
    have hn : n = [] := by
      cases n with
      | nil => rfl
      | cons c cs => simp [containsSub, isPrefixB] at h
    subst hn
    exact containsSub_needle_nil b
  | cons c cs ih =>
    simp only [containsSub, Bool.or_eq_true] at h
    rcases h with h | h
    · simp only [List.cons_append, containsSub, Bool.or_eq_true]
      exact Or.inl (isPrefixB_append n (c :: cs) b h)
    · simp only [List.cons_append, containsSub, Bool.or_eq_true]
      exact Or.inr (ih h)

lemma mapGet_mapSet_self (m : List (Str × Task)) (k : Str) (v : Task) :
    mapGet (mapSet m k v) k = some v := by
  induction m with
  | nil => simp [mapSet, mapGet]
  | cons p rest ih =>
    obtain ⟨k2, v2⟩ := p
    by_cases h : k2 = k
    · simp [mapSet, mapGet, h]
    · simp [mapSet, mapGet, h, ih]

lemma mapSet_length_fresh (m : List (Str × Task)) (k : Str) (v : Task)
    (h : ∀ p ∈ m, p.1 ≠ k) : (mapSet m k v).length = m.length + 1 := by
  induction m with
  | nil => simp [mapSet]
  | cons p rest ih =>
    obtain ⟨k2, v2⟩ := p
    have hk2 : k2 ≠ k := h (k2, v2) (List.mem_cons_self _ _)
    simp only [mapSet, if_neg hk2, List.length_cons]
    rw [ih (fun p hp => h p (List.mem_cons_of_mem _ hp))]

lemma extractTasksFromEmail_state (env : Env) (email : Email) (s : WState) :
    (extractTasksFromEmail env email s).2.extractCalls = s.extractCalls + 1 ∧
    (extractTasksFromEmail env email s).2.submitted = s.submitted ++ [email] ∧
    (extractTasksFromEmail env email s).2.fetchCalls = s.fetchCalls ∧
    (extractTasksFromEmail env email s).2.executionLogs = s.executionLogs := by
  unfold extractTasksFromEmail
  rcases h : env.llm s.extractCalls with _ | r
  · simp [h]
  · by_cases hn : r.noTask
    · simp [h, hn]
    · simp [h, hn]

lemma extractLoop_cons_some (env : Env) (email : Email) (rest : List Email)
    (s s2 : WState) (acc : List Task) (t : Task)
    (h : extractTasksFromEmail env email s = (some t, s2)) :
    extractLoop env (email :: rest) s acc = extractLoop env rest s2 (acc ++ [t]) := by
  conv_lhs => unfold extractLoop
  rw [h]

lemma extractLoop_cons_none (env : Env) (email : Email) (rest : List Email)
    (s s2 : WState) (acc : List Task)
    (h : extractTasksFromEmail env email s = (none, s2)) :
    extractLoop env (email :: rest) s acc = extractLoop env rest s2 acc := by
  conv_lhs => unfold extractLoop
  rw [h]

lemma extractLoop_state (env : Env) (emails : List Email) :
    ∀ (s : WState) (acc : List Task),
      (extractLoop env emails s acc).2.extractCalls = s.extractCalls + emails.length ∧
      (extractLoop env emails s acc).2.submitted = s.submitted ++ emails ∧
      (extractLoop env emails s acc).2.fetchCalls = s.fetchCalls ∧
      (extractLoop env emails s acc).2.executionLogs = s.executionLogs := by
  induction emails with
  | nil => intro s acc; simp [extractLoop]
  | cons email rest ih =>
    intro s acc
    obtain ⟨h1, h2, h3, h4⟩ := extractTasksFromEmail_state env email s
    rcases hres : extractTasksFromEmail env email s with ⟨o, s2⟩
    rw [hres] at h1 h2 h3 h4
    cases o with
    | some t =>
      rw [extractLoop_cons_some env email rest s s2 acc t hres]
      obtain ⟨g1, g2, g3, g4⟩ := ih s2 (acc ++ [t])
      refine ⟨?_, ?_, ?_, ?_⟩
      · rw [g1, h1]; simp [List.length_cons]; omega
      · rw [g2, h2]; simp
      · rw [g3, h3]
      · rw [g4, h4]
    | none =>
      rw [extractLoop_cons_none env email rest s s2 acc hres]
      obtain ⟨g1, g2, g3, g4⟩ := ih s2 acc
      refine ⟨?_, ?_, ?_, ?_⟩
      · rw [g1, h1]; simp [List.length_cons]; omega
      · rw [g2, h2]; simp
      · rw [g3, h3]
      · rw [g4, h4]

lemma noReply_isPromotional (headers : List Header) (body : Str)
    (h : containsSub (lowerStr (fromHeaderValue headers)) (str "no-reply") = true) :
    isPromotionalEmail headers body = true := by
  unfold isPromotionalEmail
  simp only [List.any_eq_true]
  refine ⟨str "no-reply", by simp [promotionalKeywords], ?_⟩
  have h2 := containsSub_append_left (lowerStr (fromHeaderValue headers))
    (lowerStr (subjectHeaderValue headers) ++ lowerStr body) (str "no-reply") h
  simpa [lowerStr, List.map_append, List.append_assoc] using h2

/-! Concrete fixtures used by witnesses and counterexamples. -/

/-- A concrete pending task stored under id `t1`. -/
def tW : Task :=
  ⟨str "t1", str "e9", str "Subj", some (str "Do the thing"), str "alice@work.com",
   str "medium", none, .pending, [str "first note"], 7⟩

/-- A one-task store holding `tW`. -/
def storeW : List (Str × Task) := [(str "t1", tW)]

/-- Promotional raw message: its sender is a `no-reply` address. -/
def mA : RawMessage :=
  ⟨str "a1", some ⟨some [⟨str "From", str "no-reply@promo.com"⟩,
    ⟨str "Subject", str "Big things"⟩],
    .mk (some (str "buy now")) none .null [], []⟩⟩

/-- Ordinary raw message from `bob@work.com` that will yield a task. -/
def mB : RawMessage :=
  ⟨str "b2", some ⟨some [⟨str "From", str "bob@work.com"⟩,
    ⟨str "Subject", str "Project review"⟩],
    .mk (some (str "please review the doc by friday")) none .null [], []⟩⟩

/-- Ordinary raw message from `carol@work.com` with no action item. -/
def mC : RawMessage :=
  ⟨str "c3", some ⟨some [⟨str "From", str "carol@work.com"⟩,
    ⟨str "Subject", str "hi again"⟩],
    .mk (some (str "just saying hi")) none .null [], []⟩⟩

/-- Parsed model response producing one high-priority task with a due date. -/
def rB : ExtractResult :=
  ⟨false, some (str "Review the doc"), some (str "high"), some (str "2026-10-17"),
   some (str "from bob")⟩

/-- Environment of the C1 run example: a stable three-message inbox where
`mA` is promotional, the first extractor call yields `rB` and the second
reports no task; everything else succeeds. -/
def envC1 : Env :=
  { b64 := fun s => s
    source := fun _ _ => .ok [mA, mB, mC]
    llm := fun n => if n = 0 then .ok rB else .ok ⟨true, none, none, none, none⟩
    dateNow := fun n => 100 + n
    createdNow := fun n => 200 + n
    logTime := fun k => 300 + k
    listTasksFails := none }

/-- Environment whose inbox changes between the two fetches of one run: the
first `getEmails` call sees `mB`, the second sees an empty inbox. -/
def envC2 : Env :=
  { b64 := fun s => s
    source := fun k _ => if k = 0 then .ok [mB] else .ok []
    llm := fun _ => .ok ⟨true, none, none, none, none⟩
    dateNow := fun n => n
    createdNow := fun n => n
    logTime := fun k => k
    listTasksFails := none }

/-- Environment whose Message Source always throws. -/
def envC3 : Env :=
  { b64 := fun s => s
    source := fun _ _ => .error (str "gmail down")
    llm := fun _ => .fail
    dateNow := fun n => n
    createdNow := fun n => n
    logTime := fun k => k
    listTasksFails := none }

lemma markTaskComplete_found (store : List (Str × Task)) (k : Str) (t : Task)
    (h : mapGet store k = some t) :
    markTaskComplete store k = (true, mapSet store k { t with status := .completed }) := by
  simp [markTaskComplete, h]

lemma addTaskNote_found (store : List (Str × Task)) (k : Str) (t : Task) (note : Str)
    (h : mapGet store k = some t) :
    addTaskNote store k note =
      (true, mapSet store k { t with notes := t.notes ++ [note] }) := by
  simp [addTaskNote, h]

/-! Claim C8. -/

/-- C8: for every store state, `markComplete` on a present id returns `true`
and leaves the task's status `completed` — also when applied again to the
already-completed task (idempotent, not an error) — while `markComplete`
and `addNote` on an absent id return `false`, change no store state, and
(being total functions) do not throw. -/
theorem c8_mark_complete_and_unknown_id (store : List (Str × Task))
    (taskId note : Str) (t : Task) :
    (mapGet store taskId = some t →
      markTaskComplete store taskId =
        (true, mapSet store taskId { t with status := .completed }) ∧
      mapGet (markTaskComplete store taskId).2 taskId =
        some { t with status := .completed } ∧
      (markTaskComplete (markTaskComplete store taskId).2 taskId).1 = true ∧
      mapGet (markTaskComplete (markTaskComplete store taskId).2 taskId).2 taskId =
        some { t with status := .completed }) ∧
    (mapGet store taskId = none →
      markTaskComplete store taskId = (false, store) ∧
      addTaskNote store taskId note = (false, store)) := by
  constructor
  · intro h
    have h1 := markTaskComplete_found store taskId t h
    have h2 : mapGet (markTaskComplete store taskId).2 taskId =
        some { t with status := .completed } := by
      rw [h1]
      exact mapGet_mapSet_self store taskId _
    have h3 := markTaskComplete_found (markTaskComplete store taskId).2 taskId
      { t with status := .completed } h2
    refine ⟨h1, h2, ?_, ?_⟩
    · rw [h3]
    · rw [h3, mapGet_mapSet_self]
  · intro h
    constructor
    · simp [markTaskComplete, h]
    · simp [addTaskNote, h]

/-- Witness for C8 at a concrete store: marking the present id `t1` succeeds
twice with status `completed` both times, and both operations on the absent
id `zz` report `false` and leave the store untouched. -/
theorem c8_witness :
    (markTaskComplete storeW (str "t1")).1 = true ∧
    mapGet (markTaskComplete (markTaskComplete storeW (str "t1")).2 (str "t1")).2
      (str "t1") = some { tW with status := .completed } ∧
    markTaskComplete storeW (str "zz") = (false, storeW) ∧
    addTaskNote storeW (str "zz") (str "n") = (false, storeW) := by
  have h1 := (c8_mark_complete_and_unknown_id storeW (str "t1") (str "n") tW).1
    (by decide)
  have h2 := (c8_mark_complete_and_unknown_id storeW (str "zz") (str "n") tW).2
    (by decide)
  exact ⟨by rw [h1.1], h1.2.2.2, h2.1, h2.2⟩

/-! Claim C9. -/

/-- C9: for every task present in the store, three `addNote` calls with
`n1`, `n2`, `n3` all succeed, and the task's notes afterwards are exactly
the original notes with `n1`, `n2`, `n3` appended at the end in call order:
the length grew by three and the pre-existing prefix is unaltered. -/
theorem c9_add_note_append_only (store : List (Str × Task)) (taskId : Str)
    (t : Task) (n1 n2 n3 : Str) (h : mapGet store taskId = some t) :
    ∃ s1 s2 s3,
      addTaskNote store taskId n1 = (true, s1) ∧
      addTaskNote s1 taskId n2 = (true, s2) ∧
      addTaskNote s2 taskId n3 = (true, s3) ∧
      mapGet s3 taskId = some { t with notes := t.notes ++ [n1, n2, n3] } ∧
      (t.notes ++ [n1, n2, n3]).length = t.notes.length + 3 ∧
      (t.notes ++ [n1, n2, n3]).take t.notes.length = t.notes := by
  have e1 := addTaskNote_found store taskId t n1 h
  have g1 := mapGet_mapSet_self store taskId { t with notes := t.notes ++ [n1] }
  have e2 := addTaskNote_found _ taskId { t with notes := t.notes ++ [n1] } n2 g1
  have g2 := mapGet_mapSet_self (mapSet store taskId { t with notes := t.notes ++ [n1] })
    taskId { ({ t with notes := t.notes ++ [n1] } : Task) with
             notes := ({ t with notes := t.notes ++ [n1] } : Task).notes ++ [n2] }
  have e3 := addTaskNote_found _ taskId _ n3 g2
  refine ⟨_, _, _, e1, e2, e3, ?_, by simp, by simp⟩
  rw [mapGet_mapSet_self]
  simp

/-- Witness for C9 at the concrete one-task store: the three appended notes
land at the end in call order on top of the original single note. -/
theorem c9_witness :
    ∃ s1 s2 s3,
      addTaskNote storeW (str "t1") (str "a") = (true, s1) ∧
      addTaskNote s1 (str "t1") (str "b") = (true, s2) ∧
      addTaskNote s2 (str "t1") (str "c") = (true, s3) ∧
      mapGet s3 (str "t1") =
        some { tW with notes := tW.notes ++ [str "a", str "b", str "c"] } ∧
      (tW.notes ++ [str "a", str "b", str "c"]).length = tW.notes.length + 3 ∧
      (tW.notes ++ [str "a", str "b", str "c"]).take tW.notes.length = tW.notes :=
  c9_add_note_append_only storeW (str "t1") tW (str "a") (str "b") (str "c")
    (by decide)

/-! Claim C10. -/

/-- C10: whenever the Persisting step fails (the `listTasks` call throws
`e`), the appended error log entry records `tasksExtracted = 0` regardless
of the `taskCount` produced by extraction, and the task store — including
every task inserted earlier in the run — is left untouched (no rollback). -/
theorem c10_persist_failure_logs_zero (env : Env) (emailCount taskCount : Nat)
    (s : WState) (e : Str) (h : env.listTasksFails = some e) :
    updateTaskListStep env emailCount taskCount s =
      (.error e,
        { s with executionLogs :=
            s.executionLogs ++
              [⟨env.logTime s.executionLogs.length, emailCount, 0, .error, some e⟩] }) ∧
    (updateTaskListStep env emailCount taskCount s).2.taskStore = s.taskStore := by
  refine ⟨?_, ?_⟩ <;> simp [updateTaskListStep, h, logExecution]

/-- Environment whose Persisting step fails with `listing broke`; the other
capabilities are immaterial for the third step. -/
def envC10 : Env :=
  { b64 := fun s => s
    source := fun _ _ => .ok []
    llm := fun _ => .fail
    dateNow := fun n => n
    createdNow := fun n => n
    logTime := fun k => k
    listTasksFails := some (str "listing broke") }

/-- Witness for C10: with one task already inserted and `taskCount = 2`,
the persist failure logs an error entry with `tasksExtracted = 0` (not 2)
and the store still holds the inserted task. -/
theorem c10_witness :
    updateTaskListStep envC10 3 2 ⟨storeW, [], 2, 2, []⟩ =
      (.error (str "listing broke"),
        { taskStore := storeW, executionLogs :=
            [⟨0, 3, 0, .error, some (str "listing broke")⟩],
          fetchCalls := 2, extractCalls := 2, submitted := [] }) ∧
    (updateTaskListStep envC10 3 2 ⟨storeW, [], 2, 2, []⟩).2.taskStore = storeW := by
  have h := c10_persist_failure_logs_zero envC10 3 2 ⟨storeW, [], 2, 2, []⟩
    (str "listing broke") (by decide)
  exact ⟨h.1, h.2⟩

/-! Claim C7. -/

/-- Environment for the C7 malformed-response counterexample: the model's
first response parses but is structurally malformed (think `{}` or `42`):
every field is absent and `noTask` is falsy. -/
def envC7m : Env :=
  { b64 := fun s => s
    source := fun _ _ => .ok []
    llm := fun _ => .ok ⟨false, none, none, none, none⟩
    dateNow := fun _ => 9
    createdNow := fun _ => 9
    logTime := fun k => k
    listTasksFails := none }

/-- The email under extraction in the C7 scenarios. -/
def eC7 : Email := ⟨str "m1", str "s", str "f", [], str "b"⟩

/-- Counterexample to C7: a response that parses to a structurally
malformed value (all fields absent, `noTask` falsy) is not treated as "no
task": the extractor builds a pending task with an absent description and
inserts it into the store — the store grows from empty to one entry —
contrary to the claim that a malformed structure yields no task and no
insertion for that message. -/
theorem c7_counterexample :
    ((extractTasksFromEmail envC7m eC7 initialState).1.map
      (fun t => (t.description, t.status))) = some (none, TaskStatus.pending) ∧
    (extractTasksFromEmail envC7m eC7 initialState).2.taskStore.length = 1 ∧
    initialState.taskStore.length = 0 := by
  refine ⟨by decide, by decide, by decide⟩

/-- C7 (amended): if the model call fails, the response fails to parse, or
property access on the parsed value throws, the extractor returns no task
for that message without raising and inserts nothing into the Task Store;
but a response that parses to a structurally malformed value with no
truthy `noTask` marker (such as `{}` or `42`) is not treated as no-task —
a task whose description is the response's (possibly absent) description
is built and inserted.  In either case the remaining messages of the batch
are still processed (the extractor-call counter advances by the full batch
length) and the `extractTasks` action still completes without error
whenever the fetch itself succeeded. -/
theorem c7_amended (env : Env) (email : Email) (s : WState)
    (emails : List Email) (acc : List Task) (msgs : List RawMessage)
    (r : ExtractResult) :
    (env.llm s.extractCalls = .fail →
      extractTasksFromEmail env email s =
        (none, { s with extractCalls := s.extractCalls + 1
                        submitted := s.submitted ++ [email] }) ∧
      (extractTasksFromEmail env email s).2.taskStore = s.taskStore) ∧
    (env.llm s.extractCalls = .ok r → r.noTask = false →
      ∃ t, extractTasksFromEmail env email s =
          (some t, { s with
                       taskStore := mapSet s.taskStore t.id t
                       extractCalls := s.extractCalls + 1
                       submitted := s.submitted ++ [email] }) ∧
        t.description = r.description) ∧
    (extractLoop env emails s acc).2.extractCalls = s.extractCalls + emails.length ∧
    (env.source s.fetchCalls 20 = .ok msgs →
      ∃ tasks s2, extractTasksAction env 20 s = (.ok tasks, s2)) := by
  refine ⟨?_, ?_, (extractLoop_state env emails s acc).1, ?_⟩
  · intro h
    constructor <;> simp [extractTasksFromEmail, h]
  · intro h hnt
    refine ⟨⟨mkTaskId email.id (env.dateNow s.extractCalls), email.id, email.subject,
      r.description, email.sender, jsOr r.priority (str "medium"), r.dueDate,
      .pending, [jsOr r.context []], env.createdNow s.extractCalls⟩, ?_, rfl⟩
    simp [extractTasksFromEmail, h, hnt]
  · intro h
    refine ⟨(extractLoop env (msgs.filterMap (emailOf env.b64))
        { s with fetchCalls := s.fetchCalls + 1 } []).1,
      (extractLoop env (msgs.filterMap (emailOf env.b64))
        { s with fetchCalls := s.fetchCalls + 1 } []).2, ?_⟩
    simp [extractTasksAction, getEmails, h]

/-- Environment for the C7 witness: the model call fails on the first
extractor call and reports no-task on later ones; the source yields one
plain message. -/
def envC7 : Env :=
  { b64 := fun s => s
    source := fun _ _ => .ok [⟨str "m1", some ⟨some [⟨str "From", str "bob@work.com"⟩],
      .mk (some (str "see you at lunch")) none .null [], []⟩⟩]
    llm := fun n => if n = 0 then .fail else .ok ⟨true, none, none, none, none⟩
    dateNow := fun n => n
    createdNow := fun n => n
    logTime := fun k => k
    listTasksFails := none }

/-- Witness for C7 (amended): a thrown failure returns no task and leaves
the store empty; a parse-successful malformed response yields an inserted
task with absent description; a two-email batch still advances the call
counter by two; and the `extractTasks` action completes despite a failing
first call. -/
theorem c7_witness :
    extractTasksFromEmail envC7 eC7 initialState =
      (none, { initialState with
                 extractCalls := 1
                 submitted := [eC7] }) ∧
    (∃ t, extractTasksFromEmail envC7m eC7 initialState =
        (some t, { initialState with
                     taskStore := mapSet initialState.taskStore t.id t
                     extractCalls := 1
                     submitted := [eC7] }) ∧
      t.description = (none : Option Str)) ∧
    (extractLoop envC7 [eC7, ⟨str "m2", str "s2", str "f2", [], str "b2"⟩]
      initialState []).2.extractCalls = 2 ∧
    ∃ tasks s2, extractTasksAction envC7 20 initialState = (.ok tasks, s2) := by
  have h1 := c7_amended envC7 eC7 initialState
    [eC7, ⟨str "m2", str "s2", str "f2", [], str "b2"⟩] []
    [⟨str "m1", some ⟨some [⟨str "From", str "bob@work.com"⟩],
      .mk (some (str "see you at lunch")) none .null [], []⟩⟩]
    ⟨false, none, none, none, none⟩
  have h2 := c7_amended envC7m eC7 initialState [] [] []
    ⟨false, none, none, none, none⟩
  exact ⟨(h1.1 rfl).1, h2.2.1 rfl rfl, h1.2.2.1, h1.2.2.2 rfl⟩

/-! Claim C5. -/

/-- C5: a message is classified promotional/automated exactly when at least
one of the ten fixed keywords occurs (case-insensitively) in the
concatenation of its sender header value, subject header value and decoded
body; in particular a message whose sender contains `no-reply` is
classified out by `getEmails` — it contributes nothing to the eligible list
handed to the Task Extractor, regardless of its body content. -/
theorem c5_eligibility_filter (headers : List Header) (body : Str)
    (b64 : Str → Str) (m : RawMessage) (xs ys : List RawMessage) :
    (isPromotionalEmail headers body = true ↔
      ∃ k ∈ promotionalKeywords,
        containsSub
          (lowerStr (fromHeaderValue headers ++ subjectHeaderValue headers ++ body))
          k = true) ∧
    (containsSub (lowerStr (fromHeaderValue (messageHeaders m))) (str "no-reply") = true →
      emailOf b64 m = none ∧
      (xs ++ m :: ys).filterMap (emailOf b64) =
        xs.filterMap (emailOf b64) ++ ys.filterMap (emailOf b64)) := by
  constructor
  · unfold isPromotionalEmail
    simp [List.any_eq_true]
  · intro h
    have hnone : emailOf b64 m = none := by
      unfold emailOf
      simp [noReply_isPromotional (messageHeaders m) _ h]
    exact ⟨hnone, by simp [List.filterMap_append, List.filterMap_cons, hnone]⟩

/-- Witness for C5: the concrete `no-reply` message `mA` is classified
promotional and vanishes from the eligible list, whatever surrounds it. -/
theorem c5_witness :
    isPromotionalEmail [⟨str "From", str "no-reply@promo.com"⟩] (str "hello there") = true ∧
    emailOf (fun s => s) mA = none ∧
    ([mB] ++ mA :: [mC]).filterMap (emailOf (fun s => s)) =
      [mB].filterMap (emailOf (fun s => s)) ++ [mC].filterMap (emailOf (fun s => s)) := by
  have h := c5_eligibility_filter [⟨str "From", str "no-reply@promo.com"⟩]
    (str "hello there") (fun s => s) mA [mB] [mC]
  have h2 := h.2 (by decide)
  exact ⟨(h.1).2 ⟨str "no-reply", by decide, by decide⟩, h2.1, h2.2⟩

/-! Claim C2. -/

/-- Counterexample to C2: with the inbox changing between the two fetches of
one run, the FetchingMessages step produces one eligible message (id `b2`),
yet no message at all is submitted to the Task Extractor, and the run
performs two Message Source fetches — refuting both that the submitted set
equals the fetch-stage set and that no second fetch occurs. -/
theorem c2_counterexample :
    ((fetchEmailsStep envC2 initialState).1.toOption.map
        (fun o => o.emails.map (fun e => e.id))) = some [str "b2"] ∧
    (taskRefreshWorkflow envC2 initialState).2.submitted = [] ∧
    (taskRefreshWorkflow envC2 initialState).2.fetchCalls = 2 := by
  decide

/-- C2 (amended): the ExtractingTasks step performs its own, second fetch
from the Message Source with the same bound (only the eligible-message
count is carried between steps); the messages submitted to the Task
Extractor are the eligible messages of that second fetch, which coincide
with the FetchingMessages step's eligible messages whenever the source
returns the same raw messages to both calls. -/
theorem c2_amended (env : Env) (s0 : WState) (msgs : List RawMessage)
    (o1 : FetchOut) (s1 : WState)
    (h0 : env.source s0.fetchCalls 20 = .ok msgs)
    (h1 : env.source (s0.fetchCalls + 1) 20 = .ok msgs)
    (hsub : s0.submitted = [])
    (hf : fetchEmailsStep env s0 = (.ok o1, s1)) :
    o1.emails = msgs.filterMap (emailOf env.b64) ∧
    ∃ r2 s2, extractTasksStep env s1 = (r2, s2) ∧
      s2.submitted = msgs.filterMap (emailOf env.b64) ∧
      s2.fetchCalls = s0.fetchCalls + 2 := by
  have hf2 : fetchEmailsStep env s0 =
      (.ok ⟨msgs.filterMap (emailOf env.b64), (msgs.filterMap (emailOf env.b64)).length⟩,
        { s0 with fetchCalls := s0.fetchCalls + 1 }) := by
    simp [fetchEmailsStep, getEmails, h0]
  rw [hf2] at hf
  have ho : (Except.ok ⟨msgs.filterMap (emailOf env.b64),
      (msgs.filterMap (emailOf env.b64)).length⟩ : Except Str FetchOut) = .ok o1 :=
    congrArg Prod.fst hf
  have hs : ({ s0 with fetchCalls := s0.fetchCalls + 1 } : WState) = s1 :=
    congrArg Prod.snd hf
  have ho2 : o1 = ⟨msgs.filterMap (emailOf env.b64),
      (msgs.filterMap (emailOf env.b64)).length⟩ := by
    cases ho
    rfl
  refine ⟨by rw [ho2], ?_⟩
  have hs1 : s1 = { s0 with fetchCalls := s0.fetchCalls + 1 } := hs.symm
  subst hs1
  have hget : getEmails env 20 { s0 with fetchCalls := s0.fetchCalls + 1 } =
      (.ok (msgs.filterMap (emailOf env.b64)),
        { s0 with fetchCalls := s0.fetchCalls + 1 + 1 }) := by
    simp [getEmails, h1]
  have hloop := extractLoop_state env (msgs.filterMap (emailOf env.b64))
    { s0 with fetchCalls := s0.fetchCalls + 1 + 1 } []
  refine ⟨.ok ⟨(extractLoop env (msgs.filterMap (emailOf env.b64))
      { s0 with fetchCalls := s0.fetchCalls + 1 + 1 } []).1,
      (extractLoop env (msgs.filterMap (emailOf env.b64))
      { s0 with fetchCalls := s0.fetchCalls + 1 + 1 } []).1.length⟩,
    (extractLoop env (msgs.filterMap (emailOf env.b64))
      { s0 with fetchCalls := s0.fetchCalls + 1 + 1 } []).2, ?_, ?_, ?_⟩
  · simp [extractTasksStep, extractTasksAction, hget]
  · rw [hloop.2.1]
    simp [hsub]
  · rw [hloop.2.2.1]

/-- Witness for C2 (amended) at a stable inbox: the submitted messages are
exactly the eligible decoding of the raw inbox, after two source fetches. -/
theorem c2_witness :
    ∃ r2 s2, extractTasksStep envC1 { initialState with fetchCalls := 1 } = (r2, s2) ∧
      s2.submitted = [mA, mB, mC].filterMap (emailOf envC1.b64) ∧
      s2.fetchCalls = 2 := by
  have h := c2_amended envC1 initialState [mA, mB, mC]
    ⟨[mA, mB, mC].filterMap (emailOf envC1.b64),
     ([mA, mB, mC].filterMap (emailOf envC1.b64)).length⟩
    { initialState with fetchCalls := 1 } rfl rfl rfl rfl
  exact h.2

/-! Claim C3. -/

/-- Counterexample to C3: when the Message Source throws, the run does fail
and inserts nothing, but no execution-log entry at all is appended — there
is no entry with status `error` for that run, contrary to the claim. -/
theorem c3_counterexample :
    taskRefreshWorkflow envC3 initialState =
      (.error (str "Failed to fetch emails from Gmail"),
        { initialState with fetchCalls := 1 }) ∧
    (taskRefreshWorkflow envC3 initialState).2.executionLogs = [] ∧
    (taskRefreshWorkflow envC3 initialState).2.taskStore = [] := by
  refine ⟨rfl, rfl, rfl⟩

/-- C3 (amended): if the Message Source call throws during the fetch step,
the run terminates as Failed with the fixed fetch error, zero tasks are
inserted or counted, and no execution-log entry is appended for the run
(error entries arise only from Persisting-step failures). -/
theorem c3_amended (env : Env) (s0 : WState) (e : Str)
    (h : env.source s0.fetchCalls 20 = .error e) :
    taskRefreshWorkflow env s0 =
      (.error (str "Failed to fetch emails from Gmail"),
        { s0 with fetchCalls := s0.fetchCalls + 1 }) ∧
    (taskRefreshWorkflow env s0).2.taskStore = s0.taskStore ∧
    (taskRefreshWorkflow env s0).2.executionLogs = s0.executionLogs ∧
    (taskRefreshWorkflow env s0).2.extractCalls = s0.extractCalls := by
  have h1 : taskRefreshWorkflow env s0 =
      (.error (str "Failed to fetch emails from Gmail"),
        { s0 with fetchCalls := s0.fetchCalls + 1 }) := by
    simp [taskRefreshWorkflow, fetchEmailsStep, getEmails, h]
  rw [h1]
  exact ⟨rfl, rfl, rfl, rfl⟩

/-- Witness for C3 (amended): the always-throwing source fails the run with
the fixed error and leaves store and log untouched. -/
theorem c3_witness :
    taskRefreshWorkflow envC3 initialState =
      (.error (str "Failed to fetch emails from Gmail"),
        { initialState with fetchCalls := 1 }) ∧
    (taskRefreshWorkflow envC3 initialState).2.taskStore = [] ∧
    (taskRefreshWorkflow envC3 initialState).2.executionLogs = [] := by
  have h := c3_amended envC3 initialState (str "gmail down") rfl
  exact ⟨h.1, h.2.1, h.2.2.1⟩

/-! Claim C1. -/

/-- Counterexample to C1: in the concrete three-message run (promotional
`mA`, task-yielding `mB`, no-task `mC`) the appended log entry reports
`emailsChecked = 2`, not 3 — `getEmails` drops the promotional message
before the count is taken — while the rest of the scenario (one task,
status success, one stored task linked to `mB`) behaves as claimed. -/
theorem c1_counterexample :
    ((taskRefreshWorkflow envC1 initialState).2.executionLogs.map
      (fun l => (l.emailsChecked, l.tasksExtracted, l.status))) =
        [(2, 1, LogStatus.success)] ∧
    (2 : Nat) ≠ 3 ∧
    ((taskRefreshWorkflow envC1 initialState).2.taskStore.map
      (fun p => p.2.emailId)) = [str "b2"] := by
  refine ⟨by decide, by decide, by decide⟩

/-- C1 (amended): for a run from a fresh store over 3 unread messages in
which message A is promotional, message B yields one task and message C
yields none, the appended log entry reports `emailsChecked = 2` (only the
messages surviving the promotional filter are counted; the promotional one
is excluded), `tasksExtracted = 1`, status success, and afterwards the Task
Store contains exactly one task whose source-message identifier is B's. -/
theorem c1_amended (env : Env) (a b c : RawMessage) (eB eC : Email)
    (r rC : ExtractResult)
    (h0 : env.source 0 20 = .ok [a, b, c])
    (h1 : env.source 1 20 = .ok [a, b, c])
    (hA : emailOf env.b64 a = none)
    (hB : emailOf env.b64 b = some eB)
    (hC : emailOf env.b64 c = some eC)
    (hl0 : env.llm 0 = .ok r) (hr : r.noTask = false)
    (hl1 : env.llm 1 = .ok rC) (hrC : rC.noTask = true)
    (hfail : env.listTasksFails = none) :
    ∃ out s2,
      taskRefreshWorkflow env initialState = (.ok out, s2) ∧
      s2.executionLogs = [⟨env.logTime 0, 2, 1, .success, none⟩] ∧
      s2.taskStore.map (fun p => p.2.emailId) = [eB.id] ∧
      s2.taskStore.length = 1 := by
  have helig : [a, b, c].filterMap (emailOf env.b64) = [eB, eC] := by
    simp [List.filterMap_cons, hA, hB, hC]
  have hfetch : fetchEmailsStep env initialState =
      (.ok ⟨[eB, eC], 2⟩, ⟨[], [], 1, 0, []⟩) := by
    simp [fetchEmailsStep, getEmails, initialState, h0, helig]
  have hloop : extractLoop env [eB, eC] ⟨[], [], 2, 0, []⟩ [] =
      ([⟨mkTaskId eB.id (env.dateNow 0), eB.id, eB.subject, r.description, eB.sender,
         jsOr r.priority (str "medium"), r.dueDate, .pending, [jsOr r.context []],
         env.createdNow 0⟩],
       ⟨[(mkTaskId eB.id (env.dateNow 0),
          ⟨mkTaskId eB.id (env.dateNow 0), eB.id, eB.subject, r.description, eB.sender,
           jsOr r.priority (str "medium"), r.dueDate, .pending, [jsOr r.context []],
           env.createdNow 0⟩)], [], 2, 2, [eB, eC]⟩) := by
    simp [extractLoop, extractTasksFromEmail, hl0, hl1, hr, hrC, mapSet]
  have hact : extractTasksStep env ⟨[], [], 1, 0, []⟩ =
      (.ok ⟨[⟨mkTaskId eB.id (env.dateNow 0), eB.id, eB.subject, r.description, eB.sender,
         jsOr r.priority (str "medium"), r.dueDate, .pending, [jsOr r.context []],
         env.createdNow 0⟩], 1⟩,
       ⟨[(mkTaskId eB.id (env.dateNow 0),
          ⟨mkTaskId eB.id (env.dateNow 0), eB.id, eB.subject, r.description, eB.sender,
           jsOr r.priority (str "medium"), r.dueDate, .pending, [jsOr r.context []],
           env.createdNow 0⟩)], [], 2, 2, [eB, eC]⟩) := by
    simp [extractTasksStep, extractTasksAction, getEmails, h1, helig, hloop]
  have hupd : updateTaskListStep env 2 1
      (⟨[(mkTaskId eB.id (env.dateNow 0),
          ⟨mkTaskId eB.id (env.dateNow 0), eB.id, eB.subject, r.description, eB.sender,
           jsOr r.priority (str "medium"), r.dueDate, .pending, [jsOr r.context []],
           env.createdNow 0⟩)], [], 2, 2, [eB, eC]⟩ : WState) =
      (.ok ⟨true, 1, 1⟩,
       ⟨[(mkTaskId eB.id (env.dateNow 0),
          ⟨mkTaskId eB.id (env.dateNow 0), eB.id, eB.subject, r.description, eB.sender,
           jsOr r.priority (str "medium"), r.dueDate, .pending, [jsOr r.context []],
           env.createdNow 0⟩)], [⟨env.logTime 0, 2, 1, .success, none⟩], 2, 2, [eB, eC]⟩) := by
    simp [updateTaskListStep, hfail, logExecution, getAllTasks]
  refine ⟨⟨true, 1, 1⟩,
    ⟨[(mkTaskId eB.id (env.dateNow 0),
       ⟨mkTaskId eB.id (env.dateNow 0), eB.id, eB.subject, r.description, eB.sender,
        jsOr r.priority (str "medium"), r.dueDate, .pending, [jsOr r.context []],
        env.createdNow 0⟩)], [⟨env.logTime 0, 2, 1, .success, none⟩], 2, 2, [eB, eC]⟩,
    ?_, rfl, rfl, rfl⟩
  simp only [taskRefreshWorkflow, hfetch, hact]
  exact hupd

/-- Witness for C1 (amended): the concrete three-message environment
satisfies every hypothesis and yields the amended run report. -/
theorem c1_witness :
    ∃ out s2,
      taskRefreshWorkflow envC1 initialState = (.ok out, s2) ∧
      s2.executionLogs = [⟨envC1.logTime 0, 2, 1, .success, none⟩] ∧
      s2.taskStore.map (fun p => p.2.emailId) =
        [(⟨str "b2", str "Project review", str "bob@work.com", [],
           str "please review the doc by friday"⟩ : Email).id] ∧
      s2.taskStore.length = 1 :=
  c1_amended envC1 mA mB mC
    ⟨str "b2", str "Project review", str "bob@work.com", [],
     str "please review the doc by friday"⟩
    ⟨str "c3", str "hi again", str "carol@work.com", [], str "just saying hi"⟩
    rB ⟨true, none, none, none, none⟩
    rfl rfl (by decide) (by decide) (by decide) rfl rfl rfl rfl rfl

/-! Digit-string lemmas used for task-identifier uniqueness (C6): the
decimal rendering of `Date.now()` is dash-free and injective, so two ids
`task-<messageId>-<timestamp>` coincide only when both components do. -/

lemma toDigitsCore_append (fuel : Nat) :
    ∀ (n : Nat) (acc : List Char),
      Nat.toDigitsCore 10 fuel n acc = Nat.toDigitsCore 10 fuel n [] ++ acc := by
  induction fuel with
  | zero => intro n acc; simp [Nat.toDigitsCore]
  | succ fuel ih =>
    intro n acc
    simp only [Nat.toDigitsCore]
    by_cases h : n / 10 = 0
    · simp [h]
    · simp only [if_neg h]
      rw [ih (n / 10) (Nat.digitChar (n % 10) :: acc),
        ih (n / 10) [Nat.digitChar (n % 10)]]
      simp

lemma toDigitsCore_fuel (n : Nat) :
    ∀ (fuel1 fuel2 : Nat) (acc : List Char), n < fuel1 → n < fuel2 →
      Nat.toDigitsCore 10 fuel1 n acc = Nat.toDigitsCore 10 fuel2 n acc := by
  induction n using Nat.strong_induction_on with
  | _ n ih =>
    intro fuel1 fuel2 acc hf1 hf2
    cases fuel1 with
    | zero => omega
    | succ f1 =>
      cases fuel2 with
      | zero => omega
      | succ f2 =>
        simp only [Nat.toDigitsCore]
        by_cases h : n / 10 = 0
        · simp [h]
        · simp only [if_neg h]
          have hn : n ≠ 0 := by
            intro h0
            subst h0
            simp at h
          have hdiv : n / 10 < n := Nat.div_lt_self (Nat.pos_of_ne_zero hn) (by omega)
          exact ih (n / 10) hdiv f1 f2 _ (by omega) (by omega)

lemma toDigits_small (n : Nat) (h : n < 10) : Nat.toDigits 10 n = [Nat.digitChar n] := by
  unfold Nat.toDigits
  simp only [Nat.toDigitsCore]
  have h1 : n / 10 = 0 := Nat.div_eq_of_lt h
  have h2 : n % 10 = n := Nat.mod_eq_of_lt h
  simp [h1, h2]

lemma toDigits_rec (n : Nat) (h : 10 ≤ n) :
    Nat.toDigits 10 n = Nat.toDigits 10 (n / 10) ++ [Nat.digitChar (n % 10)] := by
  unfold Nat.toDigits
  have hne : ¬ n / 10 = 0 := by
    have : 1 ≤ n / 10 := (Nat.one_le_div_iff (by omega)).2 h
    omega
  simp only [Nat.toDigitsCore, if_neg hne]
  rw [toDigitsCore_append n (n / 10) [Nat.digitChar (n % 10)]]
  congr 1
  have hdiv : n / 10 < n := Nat.div_lt_self (by omega) (by omega)
  exact toDigitsCore_fuel (n / 10) n (n / 10 + 1) [] (by omega) (by omega)

/-- Numeric value of a decimal digit character. -/
def digitVal (c : Char) : Nat := c.toNat - 48

/-- Numeric value of a decimal digit string (inverse of the rendering). -/
def valNat (s : Str) : Nat := s.foldl (fun a c => a * 10 + digitVal c) 0

lemma valNat_append_digit (s : Str) (c : Char) :
    valNat (s ++ [c]) = 10 * valNat s + digitVal c := by
  unfold valNat
  rw [List.foldl_append]
  simp [Nat.mul_comm]

lemma digitVal_digitChar (m : Nat) (h : m < 10) : digitVal (Nat.digitChar m) = m := by
  interval_cases m <;> rfl

lemma valNat_toDigits (n : Nat) : valNat (Nat.toDigits 10 n) = n := by
  induction n using Nat.strong_induction_on with
  | _ n ih =>
    by_cases h : n < 10
    · rw [toDigits_small n h]
      simp [valNat, digitVal_digitChar n h]
    · push_neg at h
      rw [toDigits_rec n h, valNat_append_digit,
        ih (n / 10) (Nat.div_lt_self (by omega) (by omega)),
        digitVal_digitChar (n % 10) (Nat.mod_lt n (by omega))]
      omega

lemma natStr_eq_toDigits (n : Nat) : natStr n = Nat.toDigits 10 n := rfl

lemma natStr_inj (a b : Nat) (h : natStr a = natStr b) : a = b := by
  have ha := valNat_toDigits a
  have hb := valNat_toDigits b
  rw [natStr_eq_toDigits, natStr_eq_toDigits] at h
  rw [← ha, ← hb, h]

lemma digitChar_ne_dash (m : Nat) (h : m < 10) : Nat.digitChar m ≠ '-' := by
  interval_cases m <;> decide

lemma dash_not_mem_toDigits (n : Nat) : '-' ∉ Nat.toDigits 10 n := by
  induction n using Nat.strong_induction_on with
  | _ n ih =>
    by_cases h : n < 10
    · rw [toDigits_small n h]
      simp only [List.mem_singleton]
      exact fun he => digitChar_ne_dash n h he.symm
    · push_neg at h
      rw [toDigits_rec n h]
      simp only [List.mem_append, List.mem_singleton]
      rintro (hm | hm)
      · exact ih (n / 10) (Nat.div_lt_self (by omega) (by omega)) hm
      · exact digitChar_ne_dash (n % 10) (Nat.mod_lt n (by omega)) hm.symm

lemma dash_not_mem_natStr (n : Nat) : '-' ∉ natStr n := by
  rw [natStr_eq_toDigits]
  exact dash_not_mem_toDigits n

lemma append_dash_inj (a1 : Str) :
    ∀ (a2 b1 b2 : Str), '-' ∉ a1 → '-' ∉ a2 →
      a1 ++ '-' :: b1 = a2 ++ '-' :: b2 → a1 = a2 ∧ b1 = b2 := by
  induction a1 with
  | nil =>
    intro a2 b1 b2 _ h2 he
    cases a2 with
    | nil =>
      simp only [List.nil_append] at he
      injection he with _ hb
      exact ⟨rfl, hb⟩
    | cons c cs =>
      simp only [List.nil_append, List.cons_append] at he
      injection he with hc _
      exact absurd (by rw [hc]; exact List.mem_cons_self c cs) h2
  | cons d ds ih =>
    intro a2 b1 b2 h1 h2 he
    cases a2 with
    | nil =>
      simp only [List.cons_append, List.nil_append] at he
      injection he with hd _
      exact absurd (by rw [← hd]; exact List.mem_cons_self d ds) h1
    | cons e es =>
      simp only [List.cons_append] at he
      injection he with hd htl
      have hrec := ih es b1 b2 (fun hm => h1 (List.mem_cons_of_mem _ hm))
        (fun hm => h2 (List.mem_cons_of_mem _ hm)) htl
      exact ⟨by rw [hd, hrec.1], hrec.2⟩

lemma mkTaskId_inj (e1 e2 : Str) (t1 t2 : Nat)
    (h : mkTaskId e1 t1 = mkTaskId e2 t2) : e1 = e2 ∧ t1 = t2 := by
  unfold mkTaskId at h
  simp only [List.append_assoc] at h
  have h2 : e1 ++ (str "-" ++ natStr t1) = e2 ++ (str "-" ++ natStr t2) :=
    List.append_cancel_left h
  have hdash : str "-" = ['-'] := rfl
  rw [hdash] at h2
  simp only [List.singleton_append] at h2
  have h3 := congrArg List.reverse h2
  simp only [List.reverse_append, List.reverse_cons, List.append_assoc,
    List.singleton_append] at h3
  have hsplit := append_dash_inj (natStr t1).reverse (natStr t2).reverse
    e1.reverse e2.reverse
    (by simp [List.mem_reverse, dash_not_mem_natStr])
    (by simp [List.mem_reverse, dash_not_mem_natStr]) h3
  exact ⟨List.reverse_injective hsplit.2,
    natStr_inj t1 t2 (List.reverse_injective hsplit.1)⟩

/-! Claim C6. -/

/-- A task created from message `e1` at timestamp 5, already in the store. -/
def tC6 : Task :=
  ⟨str "task-e1-5", str "e1", str "s", some (str "earlier task"), str "f",
   str "medium", none, .pending, [[]], 0⟩

/-- Store state already holding the id `task-e1-5`. -/
def sC6 : WState := ⟨[(str "task-e1-5", tC6)], [], 0, 0, []⟩

/-- Environment whose model call extracts a task and whose clock reads 5. -/
def envC6 : Env :=
  { b64 := fun s => s
    source := fun _ _ => .ok []
    llm := fun _ => .ok ⟨false, some (str "do it"), none, none, none⟩
    dateNow := fun _ => 5
    createdNow := fun _ => 6
    logTime := fun k => k
    listTasksFails := none }

/-- The email with source-message id `e1` being extracted. -/
def eC6 : Email := ⟨str "e1", str "s", str "f", [], str "b"⟩

/-- A task created from the different message `e0` at timestamp 3. -/
def tC6b : Task :=
  ⟨mkTaskId (str "e0") 3, str "e0", str "s", some (str "other task"), str "f",
   str "medium", none, .pending, [[]], 0⟩

/-- Store state holding only an id derived from a different message. -/
def sW6 : WState := ⟨[(mkTaskId (str "e0") 3, tC6b)], [], 0, 0, []⟩

/-- Counterexample to C6: extracting message `e1` at timestamp 5 while the
store already holds a task with id `task-e1-5` produces that very same
identifier — it is not fresh or store-unique — and the insertion replaces
the existing record instead of growing the store. -/
theorem c6_counterexample :
    ((extractTasksFromEmail envC6 eC6 sC6).1.map (fun t => t.id)) =
      some (str "task-e1-5") ∧
    sC6.taskStore.map (fun p => p.1) = [str "task-e1-5"] ∧
    (extractTasksFromEmail envC6 eC6 sC6).2.taskStore.length =
      sC6.taskStore.length := by
  refine ⟨by decide, by decide, by decide⟩

/-- C6 (amended): every task built from a successfully parsed response has
status pending, priority defaulting to `medium` when the response omits
priority, a single-element notes sequence seeded from the returned context
(empty string if none), and the identifier `task-<messageId>-<timestamp>`;
the task is inserted into the store before being returned.  Two such
identifiers coincide exactly when message id and timestamp both coincide,
so the identifier is store-unique — and the store grows by one — provided
no stored identifier derives from the same message at the same timestamp
(uniqueness is not unconditional; see the counterexample). -/
theorem c6_amended (env : Env) (email : Email) (s : WState) (r : ExtractResult)
    (hllm : env.llm s.extractCalls = .ok r) (hnt : r.noTask = false) :
    ∃ t s2, extractTasksFromEmail env email s = (some t, s2) ∧
      t.status = .pending ∧
      (r.priority = none → t.priority = str "medium") ∧
      t.notes = [jsOr r.context []] ∧
      t.notes.length = 1 ∧
      t.id = mkTaskId email.id (env.dateNow s.extractCalls) ∧
      t.emailId = email.id ∧
      s2.taskStore = mapSet s.taskStore t.id t ∧
      mapGet s2.taskStore t.id = some t ∧
      ((∀ p ∈ s.taskStore, ∃ e2 τ2, p.1 = mkTaskId e2 τ2 ∧
          (e2 ≠ email.id ∨ τ2 ≠ env.dateNow s.extractCalls)) →
        (∀ p ∈ s.taskStore, p.1 ≠ t.id) ∧
        s2.taskStore.length = s.taskStore.length + 1) := by
  have hstep : extractTasksFromEmail env email s =
      (some ⟨mkTaskId email.id (env.dateNow s.extractCalls), email.id, email.subject,
         r.description, email.sender, jsOr r.priority (str "medium"), r.dueDate,
         .pending, [jsOr r.context []], env.createdNow s.extractCalls⟩,
       { s with
           taskStore := mapSet s.taskStore (mkTaskId email.id (env.dateNow s.extractCalls))
             ⟨mkTaskId email.id (env.dateNow s.extractCalls), email.id, email.subject,
              r.description, email.sender, jsOr r.priority (str "medium"), r.dueDate,
              .pending, [jsOr r.context []], env.createdNow s.extractCalls⟩
           extractCalls := s.extractCalls + 1
           submitted := s.submitted ++ [email] }) := by
    simp [extractTasksFromEmail, hllm, hnt]
  refine ⟨_, _, hstep, rfl, ?_, rfl, rfl, rfl, rfl, rfl, mapGet_mapSet_self _ _ _, ?_⟩
  · intro hp
    simp [jsOr, hp, jsTruthyStr]
  · intro hfresh
    have hne : ∀ p ∈ s.taskStore,
        p.1 ≠ mkTaskId email.id (env.dateNow s.extractCalls) := by
      intro p hp he
      obtain ⟨e2, τ2, hpid, hneq⟩ := hfresh p hp
      have := mkTaskId_inj e2 email.id τ2 (env.dateNow s.extractCalls) (hpid ▸ he)
      rcases hneq with hq | hq
      · exact hq this.1
      · exact hq this.2
    exact ⟨hne, mapSet_length_fresh s.taskStore _ _ hne⟩

/-- Witness for C6 (amended): extracting `e1` at timestamp 5 over a store
whose only id derives from message `e0` at timestamp 3 yields a pending
task with the fresh id `task-e1-5`, distinct from every stored id, and the
store grows from one entry to two. -/
theorem c6_witness :
    ∃ t s2, extractTasksFromEmail envC6 eC6 sW6 = (some t, s2) ∧
      t.status = .pending ∧
      t.priority = str "medium" ∧
      t.id = mkTaskId (str "e1") 5 ∧
      (∀ p ∈ sW6.taskStore, p.1 ≠ t.id) ∧
      s2.taskStore.length = sW6.taskStore.length + 1 := by
  obtain ⟨t, s2, hstep, hst, hpr, hnotes, hlen, hid, hemail, hstore, hget, huniq⟩ :=
    c6_amended envC6 eC6 sW6 ⟨false, some (str "do it"), none, none, none⟩ rfl rfl
  have hfresh : ∀ p ∈ sW6.taskStore, ∃ e2 τ2, p.1 = mkTaskId e2 τ2 ∧
      (e2 ≠ eC6.id ∨ τ2 ≠ envC6.dateNow sW6.extractCalls) := by
    intro p hp
    have hpe : p = (mkTaskId (str "e0") 3, tC6b) := by
      simpa [sW6] using hp
    exact ⟨str "e0", 3, by rw [hpe], Or.inl (by decide)⟩
  obtain ⟨hne, hgrow⟩ := huniq hfresh
  exact ⟨t, s2, hstep, hst, hpr rfl, hid, hne, hgrow⟩

/-! Claim C4. -/

lemma decode_sound (f : Str → Str) :
    ∀ n : Nat,
      (∀ g : GItem, sizeOf g ≤ n → decodeEmailBody f g ≠ [] →
        ∃ d, d ∈ collectData g ∧ decodeEmailBody f g = f d) ∧
      (∀ l : List GItem, sizeOf l ≤ n → decodeParts f l ≠ [] →
        ∃ d, d ∈ collectList l ∧ decodeParts f l = f d) := by
  intro n
  induction n using Nat.strong_induction_on with
  | _ n ih =>
    constructor
    · intro g hsz hne
      cases g with
      | null => simp [decodeEmailBody] at hne
      | mk data m body parts =>
        by_cases hd : jsTruthyStr data
        · refine ⟨data.getD [], ?_, ?_⟩
          · simp [collectData, hd]
          · simp [decodeEmailBody, hd]
        · have hred : decodeEmailBody f (.mk data m body parts) = decodeParts f parts := by
            simp [decodeEmailBody, hd]
          rw [hred] at hne
          have hlt : sizeOf parts < n := by
            have h1 := optionStr_one_le_sizeOf data
            have h2 := optionStr_one_le_sizeOf m
            have h3 := GItem.one_le_sizeOf body
            simp at hsz
            omega
          obtain ⟨d, hdm, hde⟩ := (ih (sizeOf parts) hlt).2 parts (le_refl _) hne
          refine ⟨d, ?_, by rw [hred]; exact hde⟩
          simp only [collectData, List.mem_append]
          tauto
    · intro l hsz hne
      cases l with
      | nil => simp [decodeParts] at hne
      | cons p rest =>
        cases p with
        | null =>
          have hred : decodeParts f (GItem.null :: rest) = decodeParts f rest := by
            simp [decodeParts]
          rw [hred] at hne
          have hlt : sizeOf rest < n := by
            simp at hsz
            omega
          obtain ⟨d, hdm, hde⟩ := (ih (sizeOf rest) hlt).2 rest (le_refl _) hne
          refine ⟨d, ?_, by rw [hred]; exact hde⟩
          simp only [collectList, collectData, List.mem_append, List.nil_append]
          tauto
        | mk d2 m2 b2 ps2 =>
          by_cases hm : m2 = some (str "text/plain") ∨ m2 = some (str "text/html")
          · have hred : decodeParts f (GItem.mk d2 m2 b2 ps2 :: rest) =
                decodeEmailBody f b2 := by
              simp [decodeParts, hm]
            rw [hred] at hne
            have hlt : sizeOf b2 < n := by
              have h1 := optionStr_one_le_sizeOf d2
              have h2 := optionStr_one_le_sizeOf m2
              have h4 := GItem.list_one_le_sizeOf ps2
              have h5 := GItem.list_one_le_sizeOf rest
              simp at hsz
              omega
            obtain ⟨d, hdm, hde⟩ := (ih (sizeOf b2) hlt).1 b2 (le_refl _) hne
            refine ⟨d, ?_, by rw [hred]; exact hde⟩
            simp only [collectList, collectData, List.mem_append]
            tauto
          · have hred : decodeParts f (GItem.mk d2 m2 b2 ps2 :: rest) =
                if (decodeParts f ps2).isEmpty then decodeParts f rest
                else decodeParts f ps2 := by
              simp [decodeParts, hm]
            by_cases hdec : (decodeParts f ps2).isEmpty
            · rw [hred, if_pos hdec] at hne
              have hlt : sizeOf rest < n := by
                have h3 := GItem.one_le_sizeOf (GItem.mk d2 m2 b2 ps2)
                simp at hsz
                simp at h3
                omega
              obtain ⟨d, hdm, hde⟩ := (ih (sizeOf rest) hlt).2 rest (le_refl _) hne
              refine ⟨d, ?_, by rw [hred, if_pos hdec]; exact hde⟩
              simp only [collectList, List.mem_append]
              tauto
            · have hne2 : decodeParts f ps2 ≠ [] := by
                intro h0
                rw [h0] at hdec
                simp at hdec
              have hlt : sizeOf ps2 < n := by
                have h1 := optionStr_one_le_sizeOf d2
                have h2 := optionStr_one_le_sizeOf m2
                have h3 := GItem.one_le_sizeOf b2
                have h5 := GItem.list_one_le_sizeOf rest
                simp at hsz
                omega
              obtain ⟨d, hdm, hde⟩ := (ih (sizeOf ps2) hlt).2 ps2 (le_refl _) hne2
              refine ⟨d, ?_, by rw [hred, if_neg hdec]; exact hde⟩
              simp only [collectList, collectData, List.mem_append]
              tauto

/-- The payload on which the implementation and the claimed traversal
differ: a first `text/plain` part with no body, followed by a second
`text/plain` part whose body decodes to `hi`. -/
def gC4 : GItem :=
  .mk none none .null
    [.mk none (some (str "text/plain")) .null [],
     .mk none (some (str "text/plain")) (.mk (some (str "hi")) none .null []) []]

/-- Counterexample to C4: on `gC4` the decoder returns the empty string even
though a decodable `text/plain` part exists (the spec's traversal would
return `hi`): having met the first text-labelled part, the implementation
commits to it and never consults later parts, so the result is neither the
first decodable body of the claimed depth-first search nor empty-only-when
nothing is decodable. -/
theorem c4_counterexample :
    decodeEmailBody (fun s => s) gC4 = [] ∧
    decodeClaimed (fun s => s) gC4 = str "hi" ∧
    collectData gC4 ≠ [] ∧
    decodeEmailBody (fun s => s) gC4 ≠ decodeClaimed (fun s => s) gC4 := by
  refine ⟨by decide, by decide, by decide, by decide⟩

/-- C4 (amended): the decoder never fails (it is a total function); an
absent payload decodes to the empty string; a payload with JS-truthy own
`data` decodes to exactly that data, preferred over any parts; in a parts
list the first `text/plain`- or `text/html`-labelled part is committed to —
the result is the decode of that part's body even when that is empty, and
later siblings are not consulted; every nonempty result is the decode of
one of the payload's decodable `data` fields; and when the payload contains
no decodable part at all the result is the empty string. -/
theorem c4_amended (f : Str → Str) (x : GItem) (data : Option Str)
    (m : Option Str) (body : GItem) (parts rest : List GItem) :
    decodeEmailBody f .null = [] ∧
    (jsTruthyStr data = true →
      decodeEmailBody f (.mk data m body parts) = f (data.getD [])) ∧
    ((m = some (str "text/plain") ∨ m = some (str "text/html")) →
      decodeParts f (.mk data m body parts :: rest) = decodeEmailBody f body) ∧
    (decodeEmailBody f x ≠ [] → ∃ d, d ∈ collectData x ∧ decodeEmailBody f x = f d) ∧
    (collectData x = [] → decodeEmailBody f x = []) := by
  refine ⟨by simp [decodeEmailBody], ?_, ?_, ?_, ?_⟩
  · intro h
    simp [decodeEmailBody, h]
  · intro h
    simp [decodeParts, h]
  · intro h
    exact (decode_sound f (sizeOf x)).1 x (le_refl _) h
  · intro hc
    by_contra hne
    obtain ⟨d, hdm, _⟩ := (decode_sound f (sizeOf x)).1 x (le_refl _) hne
    rw [hc] at hdm
    exact absurd hdm (List.not_mem_nil d)

/-- A payload with no decodable data anywhere. -/
def gEmptyC4 : GItem := .mk none none .null [.mk (some []) none .null []]

/-- Witness for C4 (amended) at concrete payloads: the absent payload and
the undecodable tree decode to the empty string, truthy own data is
returned directly, a text-labelled part is committed to, and the nonempty
result on `gC4w` is the decode of one of its data fields. -/
theorem c4_witness :
    decodeEmailBody (fun s => s) .null = [] ∧
    decodeEmailBody (fun s => s) (.mk (some (str "yo")) none .null []) = str "yo" ∧
    decodeParts (fun s => s)
      [.mk none (some (str "text/plain")) (.mk (some (str "hi")) none .null []) [],
       .mk (some (str "later")) none .null []] =
      decodeEmailBody (fun s => s) (.mk (some (str "hi")) none .null []) ∧
    (∃ d, d ∈ collectData (.mk (some (str "yo")) none .null []) ∧
      decodeEmailBody (fun s => s) (.mk (some (str "yo")) none .null []) =
        (fun s => s) d) ∧
    decodeEmailBody (fun s => s) gEmptyC4 = [] := by
  have h1 := c4_amended (fun s => s) gEmptyC4 (some (str "yo")) none .null [] []
  have h2 := c4_amended (fun s => s) (.mk (some (str "yo")) none .null [])
    none (some (str "text/plain")) (.mk (some (str "hi")) none .null [])
    [] [.mk (some (str "later")) none .null []]
  refine ⟨h1.1, h1.2.1 (by decide), h2.2.2.1 (Or.inl rfl), ?_, h1.2.2.2.2 (by decide)⟩
  exact h2.2.2.2.1 (by decide)
end EmailAgent
